import Mathlib

/-!
Verification development for the subql-near indexing engine core.

Shallow embedding of the fetch-schedule-dispatch pipeline of the repository:
the fetch scheduler (`packages/node/src/indexer/project.service.ts`, class
`FetchService` and `ProjectService`), the NEAR block/action utilities
(`packages/node/src/utils/near.ts`, concatenated in
`packages/node/src/subcommands/mmrMigrate.module.ts`), the cron timestamp
filter compiled by `generateTimestampReferenceForBlockFilters`
(`packages/node/src/configure/SubqueryProject.ts`), and the worker service
(`packages/node/src/indexer/worker/worker.service.ts`).

Heights, counts and sizes are JavaScript numbers used as non-negative
integers in the source; they are modelled as `Nat`.  Timestamps can be
compared against cron slots that sit anywhere on the time axis, so they are
modelled as `Int`.  JavaScript truthiness is modelled explicitly where the
source relies on it (`latestBufferedHeight ? _ : _`, `filter.modulo`,
`filter.type ? _ : _`, `!this.fetchedBlocks[height]`).
-/

set_option maxRecDepth 1000000

/-- Handler kinds from `@subql/types-near` (`NearHandlerKind`). -/
inductive NearHandlerKind where
  | Block
  | Transaction
  | Action
deriving DecidableEq, Repr

/-- `NearBlockFilter {modulo?, timestamp?}` from `@subql/types-near`. -/
structure NearBlockFilter where
  modulo : Option Nat
  timestamp : Option String
deriving DecidableEq, Repr

/-- A datasource mapping handler.  Only the block-filter part matters to the
scheduler (`getModulos` reads `handler.filter.modulo` for block handlers);
transaction/action handler filters do not appear in any claim about the
scheduler, so `filter` carries the block filter shape. -/
structure NearHandler where
  kind : NearHandlerKind
  filter : Option NearBlockFilter
deriving DecidableEq, Repr

/-- `SubqlProjectDs` as the scheduler uses it: a `startBlock`, whether the
datasource is custom (`isCustomDs(ds)`), and its `mapping.handlers`. -/
structure SubqlProjectDs where
  startBlock : Nat
  isCustom : Bool
  handlers : List NearHandler
deriving DecidableEq, Repr

/-- `ProjectService.getAllDataSources` (project.service.ts lines 75-81):
`[...this.project.dataSources, ...dynamicDs].filter((ds) => ds.startBlock <= blockHeight)`.
Note that the filter is applied to static and dynamic datasources alike. -/
def getAllDataSources (staticDataSources dynamicDataSources : List SubqlProjectDs)
    (blockHeight : Nat) : List SubqlProjectDs :=
  (staticDataSources ++ dynamicDataSources).filter
    (fun ds => decide (ds.startBlock ≤ blockHeight))

/-- The claim's reading of `getAllDataSources`: all static datasources plus
only the dynamic ones with `startBlock ≤ height`.  Written from the spec's
words to be compared with the source definition above. -/
def claimedGetAllDataSources (staticDataSources dynamicDataSources : List SubqlProjectDs)
    (blockHeight : Nat) : List SubqlProjectDs :=
  staticDataSources ++
    dynamicDataSources.filter (fun ds => decide (ds.startBlock ≤ blockHeight))

/-- `FetchService.getModulos` (project.service.ts lines 439-456): collect
`handler.filter.modulo` over every non-custom datasource's block handlers.
The source guards with JavaScript truthiness (`handler.filter && handler.filter.modulo`),
so an absent filter and a zero modulo are both skipped. -/
def getModulos (dataSources : List SubqlProjectDs) : List Nat :=
  dataSources.flatMap (fun ds =>
    if ds.isCustom then []
    else
      ds.handlers.filterMap (fun handler =>
        match handler.kind, handler.filter with
        | NearHandlerKind.Block, some f =>
            match f.modulo with
            | some m => if m ≠ 0 then some m else none
            | none => none
        | _, _ => none))

/-- `FetchService.getModuloBlocks` (project.service.ts lines 458-467): the
heights `i` in `[startHeight, endHeight)` divisible by at least one modulo. -/
def getModuloBlocks (dataSources : List SubqlProjectDs) (startHeight endHeight : Nat) : List Nat :=
  (List.range' startHeight (endHeight - startHeight)).filter
    (fun i => (getModulos dataSources).any (fun m => i % m == 0))

/-- The largest element of a list of naturals (`Math.max(...list)`), with 0 for
the empty list (JavaScript yields -Infinity there; every use below is guarded
by non-emptiness or by a strict comparison that agrees with 0). -/
def maxList : List Nat → Nat
  | [] => 0
  | x :: xs => max x (maxList xs)

/-- `FetchService.getEnqueuedModuloBlocks` (project.service.ts lines 469-475):
`getModuloBlocks(start, batchSize * Math.max(...modulos) + start).slice(0, batchSize)`.
The range is not clamped to any chain head. -/
def getEnqueuedModuloBlocks (batchSize : Nat) (dataSources : List SubqlProjectDs)
    (startBlockHeight : Nat) : List Nat :=
  (getModuloBlocks dataSources startBlockHeight
      (batchSize * maxList (getModulos dataSources) + startBlockHeight)).take batchSize

/-- Modelled from the spec: `cleanedBatchBlocks` lives in `@subql/node-core`,
which is not among the repository sources; per the spec the cleaned list is
the requested list minus the bypass members. -/
def cleanedBatchBlocks (bypassBlocks currentBlockBatch : List Nat) : List Nat :=
  currentBlockBatch.filter (fun b => decide (b ∉ bypassBlocks))

/-- `FetchService.filteredBlockBatch` (project.service.ts lines 610-628):
returns the cleaned batch together with the updated bypass list (the source
mutates `this.bypassBlocks`, removing the members below the batch maximum). -/
def filteredBlockBatch (bypassBlocks currentBatchBlocks : List Nat) : List Nat × List Nat :=
  if bypassBlocks = [] then (currentBatchBlocks, bypassBlocks)
  else
    let cleanedBatch := cleanedBatchBlocks bypassBlocks currentBatchBlocks
    let pollutedBlocks := bypassBlocks.filter (fun b => decide (b < maxList currentBatchBlocks))
    (cleanedBatch, bypassBlocks.filter (fun b => decide (b ∉ pollutedBlocks)))

/-- `FetchService.getLatestBufferHeight` (project.service.ts lines 604-609):
`Math.max(...cleanedBatchBlocks, ...rawBatchBlocks)`. -/
def getLatestBufferHeight (cleanedBlocks rawBatchBlocks : List Nat) : Nat :=
  maxList (cleanedBlocks ++ rawBatchBlocks)

/-- `DICTIONARY_MAX_QUERY_SIZE` (project.service.ts line 132). -/
def DICTIONARY_MAX_QUERY_SIZE : Nat := 10000

/-- What one scheduler iteration hands to `blockDispatcher.enqueueBlocks`,
plus the bypass list left behind. -/
structure ScanResult where
  enqueued : List Nat
  latestBufferedHeight : Nat
  bypassAfter : List Nat
deriving DecidableEq, Repr

/-- The dictionary branch of `FetchService.fillNextBlockBuffer`
(project.service.ts lines 517-575), after `dictionaryValidation` has
succeeded and the start height has not moved during the query:
merge `batchBlocks` with the local modulo blocks for
`[start, start + DICTIONARY_MAX_QUERY_SIZE)`, sort ascending (the source
`concat(...).sort((a, b) => a - b)` does not deduplicate), then either
advance the buffered height on an empty merge, or enqueue the first
`min(length, freeSize)` heights through `filteredBlockBatch`. -/
def dictionaryScanEnqueue (dataSources : List SubqlProjectDs) (bypassBlocks : List Nat)
    (startBlockHeight freeSize : Nat) (dictBatchBlocks : List Nat)
    (lastProcessedHeight : Nat) : ScanResult :=
  let queryEndBlock := startBlockHeight + DICTIONARY_MAX_QUERY_SIZE
  let moduloBlocks := getModuloBlocks dataSources startBlockHeight queryEndBlock
  let batchBlocks := List.insertionSort (fun a b => a ≤ b) (dictBatchBlocks ++ moduloBlocks)
  if batchBlocks = [] then
    { enqueued := [],
      latestBufferedHeight := min (queryEndBlock - 1) lastProcessedHeight,
      bypassAfter := bypassBlocks }
  else
    let maxBlockSize := min batchBlocks.length freeSize
    let enqueuingBlocks := batchBlocks.take maxBlockSize
    let cleaned := filteredBlockBatch bypassBlocks enqueuingBlocks
    { enqueued := cleaned.1,
      latestBufferedHeight := getLatestBufferHeight cleaned.1 enqueuingBlocks,
      bypassAfter := cleaned.2 }

/-- The claim's reading of the dictionary merge: ascending sort of the
duplicate-free union of the dictionary blocks and the modulo blocks,
truncated to at most `freeSize`.  Written from the spec's words to be
compared with `dictionaryScanEnqueue`. -/
def claimedDictionaryEnqueue (dataSources : List SubqlProjectDs)
    (startBlockHeight freeSize : Nat) (dictBatchBlocks : List Nat) : List Nat :=
  (List.insertionSort (fun a b => a ≤ b)
      ((dictBatchBlocks ++
          getModuloBlocks dataSources startBlockHeight
            (startBlockHeight + DICTIONARY_MAX_QUERY_SIZE)).dedup)).take freeSize

/-- `FetchService.nextEndBlockHeight` (project.service.ts lines 630-646). -/
def nextEndBlockHeight (startBlockHeight scaledBatchSize latestFinalizedHeight latestBestHeight : Nat)
    (unfinalizedBlocks : Bool) : Nat :=
  let endBlockHeight := startBlockHeight + scaledBatchSize - 1
  if latestFinalizedHeight < endBlockHeight then
    if unfinalizedBlocks then
      if latestBestHeight ≤ endBlockHeight then latestBestHeight else endBlockHeight
    else latestFinalizedHeight
  else endBlockHeight

/-- The non-dictionary tail of `FetchService.fillNextBlockBuffer`
(project.service.ts lines 582-601): the modulo-only fast path when every
handler is a modulo block handler, and the plain inclusive range otherwise. -/
def nonDictionaryScanEnqueue (dataSources : List SubqlProjectDs) (bypassBlocks : List Nat)
    (batchSize startBlockHeight scaledBatchSize latestFinalizedHeight latestBestHeight : Nat)
    (unfinalizedBlocks : Bool) : ScanResult :=
  let handlers := dataSources.flatMap (fun ds => ds.handlers)
  if handlers.length ≠ 0 ∧ (getModulos dataSources).length = handlers.length then
    let enqueuingBlocks := getEnqueuedModuloBlocks batchSize dataSources startBlockHeight
    let cleaned := filteredBlockBatch bypassBlocks enqueuingBlocks
    { enqueued := cleaned.1,
      latestBufferedHeight := getLatestBufferHeight cleaned.1 enqueuingBlocks,
      bypassAfter := cleaned.2 }
  else
    let endHeight := nextEndBlockHeight startBlockHeight scaledBatchSize
      latestFinalizedHeight latestBestHeight unfinalizedBlocks
    let enqueuingBlocks := List.range' startBlockHeight (endHeight + 1 - startBlockHeight)
    let cleaned := filteredBlockBatch bypassBlocks enqueuingBlocks
    { enqueued := cleaned.1,
      latestBufferedHeight := getLatestBufferHeight cleaned.1 enqueuingBlocks,
      bypassAfter := cleaned.2 }

/-- Outcome of one iteration of the `while (!this.isShutdown)` loop. -/
inductive ScanStep where
  | wait
  | enqueue (result : ScanResult)
deriving DecidableEq, Repr

/-- One iteration of `FetchService.fillNextBlockBuffer`
(project.service.ts lines 477-603).  `latestBufferedHeight = 0` models the
JavaScript falsy dispatcher height at cold start (`latestBufferedHeight ? latestBufferedHeight + 1 : initBlockHeight`).
`scaledBatchSize` is taken as an input because `checkMemoryUsage`, which
drives `batchSizeScale`, is external to the repository.  `dictResult` is the
validated dictionary response `(batchBlocks, lastProcessedHeight)`, `none`
when the dictionary errored or failed validation; the race where the start
height moves during the query restarts the loop and is not modelled. -/
def fillNextBlockBufferStep (dataSources : List SubqlProjectDs) (bypassBlocks : List Nat)
    (batchSize : Nat) (unfinalizedBlocks : Bool)
    (latestBufferedHeight initBlockHeight : Nat)
    (latestFinalizedHeight latestBestHeight : Nat)
    (freeSize scaledBatchSize : Nat)
    (useDict : Bool) (dictionaryStartHeight : Nat)
    (dictResult : Option (List Nat × Nat)) : ScanStep :=
  let startBlockHeight := if latestBufferedHeight ≠ 0 then latestBufferedHeight + 1
    else initBlockHeight
  let latestHeight := if unfinalizedBlocks then latestBestHeight else latestFinalizedHeight
  if freeSize < scaledBatchSize ∨ latestHeight < startBlockHeight then
    ScanStep.wait
  else if useDict ∧ dictionaryStartHeight ≤ startBlockHeight then
    match dictResult with
    | some (batchBlocks, lastProcessedHeight) =>
        ScanStep.enqueue (dictionaryScanEnqueue dataSources bypassBlocks startBlockHeight
          freeSize batchBlocks lastProcessedHeight)
    | none =>
        ScanStep.enqueue (nonDictionaryScanEnqueue dataSources bypassBlocks batchSize
          startBlockHeight scaledBatchSize latestFinalizedHeight latestBestHeight
          unfinalizedBlocks)
  else
    ScanStep.enqueue (nonDictionaryScanEnqueue dataSources bypassBlocks batchSize
      startBlockHeight scaledBatchSize latestFinalizedHeight latestBestHeight
      unfinalizedBlocks)

/-- Dictionary `_metadata` (`@subql/utils` MetaData, as used by the service). -/
structure MetaData where
  lastProcessedHeight : Nat
  genesisHash : String
  chain : String
  startHeight : Nat
deriving DecidableEq, Repr

/-- The only `FetchService` field mutated by `dictionaryValidation`:
`dictionaryGenesisMatches` (project.service.ts line 178, set to `false` at
line 671 and never reset). -/
structure FetchState where
  dictionaryGenesisMatches : Bool
deriving DecidableEq, Repr

/-- `FetchService.dictionaryValidation` (project.service.ts lines 660-691):
returns the boolean outcome and the updated service state.  A genesis
mismatch flips `dictionaryGenesisMatches` to `false`; a lagging
`lastProcessedHeight` only fails this call. -/
def dictionaryValidation (st : FetchState) (poolGenesisHash : String)
    (dictionary : Option MetaData) (startBlockHeight : Option Nat) : Bool × FetchState :=
  match dictionary with
  | none => (false, st)
  | some metaData =>
    if metaData.genesisHash ≠ poolGenesisHash then
      (false, { st with dictionaryGenesisMatches := false })
    else
      match startBlockHeight with
      | some s => if metaData.lastProcessedHeight < s then (false, st) else (true, st)
      | none => (true, st)

/-- `FetchService.useDictionary` (project.service.ts lines 311-320):
a dictionary endpoint is configured, the genesis still matches, and the
current query-entry set is non-empty. -/
def useDictionary (st : FetchState) (hasDictionaryUrl : Bool) (queryEntriesCount : Nat) : Bool :=
  hasDictionaryUrl && st.dictionaryGenesisMatches && decide (queryEntriesCount ≠ 0)

/-- A session suffix: fold any sequence of later `dictionaryValidation` calls
(each with its own response and optional start height) over the state.  No
other code path writes `dictionaryGenesisMatches`. -/
def runValidations (poolGenesisHash : String) (st : FetchState)
    (calls : List (Option MetaData × Option Nat)) : FetchState :=
  calls.foldl (fun s c => (dictionaryValidation s poolGenesisHash c.1 c.2).2) st

/-- The `cron-converter` seeker compiled by
`generateTimestampReferenceForBlockFilters` (SubqueryProject.ts lines
202-249).  `slots` is the doubly infinite ascending sequence of cron
occurrences; `pos` is the cursor.  `schedule.next()` moves the cursor one
slot forward and returns that slot; `schedule.prev()` moves it one slot back.
The compiled filter's `next` is a getter that calls `schedule.next()`
(SubqueryProject.ts lines 233-236), so every read advances the cursor. -/
structure CronSeeker where
  slots : Int → Int
  pos : Int

/-- `schedule.next()` of the cron seeker. -/
def seekerNext (s : CronSeeker) : Int × CronSeeker :=
  (s.slots (s.pos + 1), { s with pos := s.pos + 1 })

/-- `schedule.prev()` of the cron seeker. -/
def seekerPrev (s : CronSeeker) : Int × CronSeeker :=
  (s.slots (s.pos - 1), { s with pos := s.pos - 1 })

/-- The `cronSchedule.next` getter: `Date.parse(this.schedule.next().format())`. -/
def cronScheduleNext (s : CronSeeker) : Int × CronSeeker := seekerNext s

/-- `filterBlockTimestamp` (utils/near.ts, concatenated in
mmrMigrate.module.ts lines 170-192).  Returns the match outcome, the seeker
state after the call, and the timestamps mentioned by the two log lines in
the match branch (the second log line reads the `next` getter again). -/
def filterBlockTimestamp (unixTimestamp : Int) (s : CronSeeker) :
    Bool × CronSeeker × List Int :=
  let read1 := cronScheduleNext s
  if read1.1 < unixTimestamp then
    let read2 := cronScheduleNext read1.2
    let rewound := seekerPrev read2.2
    (true, rewound.2, [unixTimestamp, read2.1])
  else
    let rewound := seekerPrev read1.2
    (false, rewound.2, [])

/-- Opaque payload carried by a NEAR action (`any` in the source; the code
under scrutiny passes it through unchanged). -/
inductive NearActionValue where
  | empty
  | value (payload : Nat)
deriving DecidableEq, Repr

/-- The slice of `NearTransaction` that action wrapping carries along. -/
structure NearTransaction where
  hash : String
deriving DecidableEq, Repr

/-- `NearAction {id, type, action, transaction}` as built by `wrapAction`. -/
structure NearAction where
  id : Nat
  type : String
  action : NearActionValue
  transaction : NearTransaction
deriving DecidableEq, Repr

/-- The closed variant set of NEAR action types
(utils/near.ts `parseNearAction` switch cases). -/
def actionTypes : List String :=
  ["CreateAccount", "DeployContract", "FunctionCall", "Transfer", "Stake",
   "AddKey", "DeleteKey", "DeleteAccount"]

/-- `parseNearAction` (utils/near.ts, concatenated in mmrMigrate.module.ts
lines 101-122): the switch over the eight known type strings; the payload is
only cast, so it passes through unchanged; unknown types throw. -/
def parseNearAction (ty : String) (action : NearActionValue) : Except String NearActionValue :=
  if ty = "CreateAccount" then Except.ok action
  else if ty = "DeployContract" then Except.ok action
  else if ty = "FunctionCall" then Except.ok action
  else if ty = "Transfer" then Except.ok action
  else if ty = "Stake" then Except.ok action
  else if ty = "AddKey" then Except.ok action
  else if ty = "DeleteKey" then Except.ok action
  else if ty = "DeleteAccount" then Except.ok action
  else Except.error ("Invalid type string for NearAction")

/-- A wire action: either a bare string or a JavaScript object, the latter
modelled as its key-value pairs in property order. -/
inductive WireAction where
  | str (s : String)
  | obj (fields : List (String × NearActionValue))
deriving DecidableEq, Repr

/-- `wrapAction` (utils/near.ts, concatenated in mmrMigrate.module.ts lines
124-144).  The literal string `"CreateAccount"` becomes the CreateAccount
variant with empty payload; any other bare string reaches the object branch,
where `Object.keys` yields only character indices, none of which is a valid
action type, so `parseNearAction` throws.  For an object, the first key is
the type and its value the payload. -/
def wrapAction (action : WireAction) (id : Nat) (transaction : NearTransaction) :
    Except String NearAction :=
  match action with
  | WireAction.str s =>
      if s = "CreateAccount" then
        match parseNearAction ("CreateAccount") NearActionValue.empty with
        | Except.ok v =>
            Except.ok { id := id, type := "CreateAccount", action := v,
                        transaction := transaction }
        | Except.error e => Except.error e
      else Except.error ("Invalid type string for NearAction")
  | WireAction.obj fields =>
      let ty := (fields.map Prod.fst).headD ""
      match parseNearAction ty ((fields.lookup ty).getD NearActionValue.empty) with
      | Except.ok v =>
          Except.ok { id := id, type := ty, action := v, transaction := transaction }
      | Except.error e => Except.error e

/-- `NearActionFilter {type, action?}` (`@subql/types-near`; the node model
class marks `action` optional and the filter engine never reads it).
`type` is `Option String` because the filter engine guards it with
JavaScript truthiness. -/
structure NearActionFilter where
  type : Option String
  action : Option NearActionValue
deriving DecidableEq, Repr

/-- `filterAction` (utils/near.ts, concatenated in mmrMigrate.module.ts lines
218-224): `filter.type ? action.type === filter.type : true`.  An absent
filter, an absent `type`, and the falsy empty string all pass everything. -/
def filterAction (action : NearAction) (filter : Option NearActionFilter) : Bool :=
  match filter with
  | none => true
  | some f =>
      match f.type with
      | some ty => if ty = "" then true else decide (action.type = ty)
      | none => true

/-- The claim's reading of `filterAction`: pass iff `type` is unset or equal.
Written from the spec's words to be compared with the source definition. -/
def claimedFilterAction (action : NearAction) (f : NearActionFilter) : Bool :=
  match f.type with
  | some ty => decide (action.type = ty)
  | none => true

/-- The `filter | filter[] | undefined` argument shape of the array filter
variants. -/
inductive FilterArg (α : Type) where
  | undef
  | single (f : α)
  | array (fs : List α)
deriving DecidableEq, Repr

/-- `filterActions` (utils/near.ts, concatenated in mmrMigrate.module.ts
lines 226-241): undefined or an empty array returns the input unchanged;
otherwise keep an action iff some filter passes it (`filters.find`). -/
def filterActions (actions : List NearAction)
    (filterOrFilters : FilterArg NearActionFilter) : List NearAction :=
  match filterOrFilters with
  | FilterArg.undef => actions
  | FilterArg.array [] => actions
  | FilterArg.single f =>
      actions.filter (fun action => [f].any (fun g => filterAction action (some g)))
  | FilterArg.array fs =>
      actions.filter (fun action => fs.any (fun g => filterAction action (some g)))

/-- What passing a single action filter amounts to in the source:
`type` unset, or set to the falsy empty string, or equal to the action type. -/
def actionFilterPasses (action : NearAction) (f : NearActionFilter) : Prop :=
  f.type = none ∨ f.type = some "" ∨ f.type = some action.type

/-- A fetched NEAR block as the worker stores it (opaque to the claims). -/
structure BlockContent where
  blockHeight : Nat
deriving DecidableEq, Repr

/-- Worker-side errors: the locally defined `BlockUnavailableError`
(worker.service.ts lines 34-39) versus every other thrown error. -/
inductive WorkerError where
  | blockUnavailable (message : String)
  | other (message : String)
deriving DecidableEq, Repr

/-- `ProcessBlockResponse` from `@subql/node-core` as the worker returns it. -/
structure ProcessBlockResponse where
  blockHash : Option String
  dynamicDsCreated : Bool
  reindexBlockHeight : Option Nat
deriving DecidableEq, Repr

/-- The `fetchedBlocks` record of `WorkerService`: a height maps to nothing
(never fetched), to `some none` (the RPC returned `null`: the block is
permanently unavailable in the chain), or to `some (some block)`. -/
def FetchedBlocks : Type := Nat → Option (Option BlockContent)

/-- The `try` body of `WorkerService.processBlock` (worker.service.ts lines
84-103): a `null` entry throws `BlockUnavailableError`, a missing entry
throws a plain error, otherwise the entry is deleted and the block is handed
to `indexerManager.indexBlock` with `getAllDataSources(height)`. -/
def processBlockTry (staticDataSources dynamicDataSources : List SubqlProjectDs)
    (fetchedBlocks : FetchedBlocks)
    (indexBlock : BlockContent → List SubqlProjectDs → Except WorkerError ProcessBlockResponse)
    (height : Nat) :
    Except WorkerError ProcessBlockResponse × FetchedBlocks :=
  match fetchedBlocks height with
  | some none =>
      (Except.error (WorkerError.blockUnavailable
          ("Block " ++ toString height ++ " is unavailable in the chain")),
        fetchedBlocks)
  | none =>
      (Except.error (WorkerError.other
          ("Block " ++ toString height ++ " has not been fetched")),
        fetchedBlocks)
  | some (some block) =>
      ((indexBlock block (getAllDataSources staticDataSources dynamicDataSources height)),
        fun h => if h = height then none else fetchedBlocks h)

/-- `WorkerService.processBlock` (worker.service.ts lines 83-119): the catch
clause converts a `BlockUnavailableError` into the non-fatal
`{blockHash: null, dynamicDsCreated: false, reindexBlockHeight: null}`
response and re-raises everything else. -/
def processBlock (staticDataSources dynamicDataSources : List SubqlProjectDs)
    (fetchedBlocks : FetchedBlocks)
    (indexBlock : BlockContent → List SubqlProjectDs → Except WorkerError ProcessBlockResponse)
    (height : Nat) :
    Except WorkerError ProcessBlockResponse × FetchedBlocks :=
  let r := processBlockTry staticDataSources dynamicDataSources fetchedBlocks indexBlock height
  match r.1 with
  | Except.error (WorkerError.blockUnavailable _) =>
      (Except.ok { blockHash := none, dynamicDsCreated := false, reindexBlockHeight := none },
        r.2)
  | Except.error (WorkerError.other m) => (Except.error (WorkerError.other m), r.2)
  | Except.ok resp => (Except.ok resp, r.2)

/-- `FetchBlockResponse` (worker.service.ts lines 21-23); the queued task
always returns `undefined` in the current code, modelled as `none`. -/
structure SpecInfo where
  specVersion : Nat
  parentHash : String
deriving DecidableEq, Repr

/-- The queued task inside `WorkerService.fetchBlock` (worker.service.ts
lines 60-77): refetch when the stored entry is JavaScript-falsy (absent or
`null`), store the RPC result on success, and always return `undefined`.
`rpcResult` is the outcome of `apiService.fetchBlocks([height])` for this
height. -/
def fetchBlockTask (fetchedBlocks : FetchedBlocks)
    (rpcResult : Except WorkerError (Option BlockContent)) (height : Nat) :
    Except WorkerError (Option SpecInfo) × FetchedBlocks :=
  let hasTruthyEntry := match fetchedBlocks height with
    | some (some _) => true
    | _ => false
  if hasTruthyEntry then (Except.ok none, fetchedBlocks)
  else
    match rpcResult with
    | Except.error e => (Except.error e, fetchedBlocks)
    | Except.ok b => (Except.ok none, fun h => if h = height then some b else fetchedBlocks h)

/-- `WorkerService.fetchBlock` (worker.service.ts lines 58-81): the catch-all
logs the failure and falls through, so the promise always resolves, with
`undefined`. -/
def fetchBlock (fetchedBlocks : FetchedBlocks)
    (rpcResult : Except WorkerError (Option BlockContent)) (height : Nat) :
    Option SpecInfo × FetchedBlocks :=
  match fetchBlockTask fetchedBlocks rpcResult height with
  | (Except.ok r, m) => (r, m)
  | (Except.error _, m) => (none, m)

/-- Fixture: a static datasource starting at height 10 with no handlers. -/
def dsStatic10 : SubqlProjectDs := { startBlock := 10, isCustom := false, handlers := [] }

/-- Fixture: the claim C2 scenario datasource — one runtime block handler
with `modulo = 100`, `startBlock = 1000`. -/
def dsModulo100 : SubqlProjectDs :=
  { startBlock := 1000, isCustom := false,
    handlers := [{ kind := NearHandlerKind.Block,
                   filter := some { modulo := some 100, timestamp := none } }] }

/-- Fixture: a runtime datasource whose single block handler has
`modulo = 5000`. -/
def dsModulo5000 : SubqlProjectDs :=
  { startBlock := 1, isCustom := false,
    handlers := [{ kind := NearHandlerKind.Block,
                   filter := some { modulo := some 5000, timestamp := none } }] }

/-- Fixture: a cron seeker whose occurrences are the multiples of 100,
cursor on slot 0. -/
def hundredSlots : CronSeeker := { slots := fun i => 100 * i, pos := 0 }

/-- Fixture: an action of type Transfer. -/
def actTransfer : NearAction :=
  { id := 0, type := "Transfer", action := NearActionValue.empty,
    transaction := { hash := "txhash" } }

/-- Fixture: an action filter whose `type` is the empty string — accepted by
the manifest validator (`@IsString()`), falsy to the filter engine. -/
def emptyTypeFilter : NearActionFilter := { type := some "", action := none }

/-- Fixture: a worker block map with a `null` entry at height 42 and a real
block at height 43. -/
def fetchedFixture : FetchedBlocks :=
  fun n => if n = 42 then some none
    else if n = 43 then some (some { blockHeight := 43 }) else none

/-- Fixture: an indexer that fails with a transient error on every block. -/
def indexBoom : BlockContent → List SubqlProjectDs → Except WorkerError ProcessBlockResponse :=
  fun _ _ => Except.error (WorkerError.other ("boom"))

/-- Every member of a list is bounded by `maxList`. -/
theorem le_maxList_of_mem {x : Nat} {l : List Nat} (h : x ∈ l) : x ≤ maxList l := by
  induction l with
  | nil => cases h
  | cons a t ih =>
      simp only [maxList]
      rcases List.mem_cons.mp h with rfl | h2
      · exact Nat.le_max_left _ _
      · exact le_trans (ih h2) (Nat.le_max_right _ _)

/-- `maxList` over an append is the max of the two maxima. -/
theorem maxList_append (a b : List Nat) : maxList (a ++ b) = max (maxList a) (maxList b) := by
  induction a with
  | nil => simp [maxList]
  | cons x t ih => simp [maxList, ih, Nat.max_assoc]

/-- `maxList` is monotone under list inclusion. -/
theorem maxList_le_of_subset {l₁ l₂ : List Nat} (h : ∀ x ∈ l₁, x ∈ l₂) :
    maxList l₁ ≤ maxList l₂ := by
  induction l₁ with
  | nil => simp [maxList]
  | cons x t ih =>
      simp only [maxList]
      exact Nat.max_le.mpr
        ⟨le_maxList_of_mem (h x (by simp)),
         ih (fun y hy => h y (List.mem_cons_of_mem _ hy))⟩

/-- Claim C3 counterexample: a static datasource with `startBlock = 10` is
dropped by `getAllDataSources(5)`, while the claim's reading keeps it. -/
theorem getAllDataSources_counterexample :
    getAllDataSources [dsStatic10] [] 5 = [] ∧
    claimedGetAllDataSources [dsStatic10] [] 5 = [dsStatic10] ∧
    ([] : List SubqlProjectDs) ≠ [dsStatic10] := by
  refine ⟨by decide, by decide, by decide⟩

/-- Claim C3 (amended): `getAllDataSources(h)` returns exactly the
datasources — static and dynamic alike — whose `startBlock ≤ h`; static
datasources above `h` are excluded too. -/
theorem getAllDataSources_mem_spec (staticDataSources dynamicDataSources : List SubqlProjectDs)
    (blockHeight : Nat) (ds : SubqlProjectDs) :
    ds ∈ getAllDataSources staticDataSources dynamicDataSources blockHeight ↔
      (ds ∈ staticDataSources ∨ ds ∈ dynamicDataSources) ∧ ds.startBlock ≤ blockHeight := by
  simp [getAllDataSources, List.mem_filter, List.mem_append, or_and_right]

/-- Claim C6: for a scan with raw batch `raw` and bypass list `B`, the
cleaned list returned by `filteredBlockBatch` shares no element with `B`,
and `getLatestBufferHeight` applied to the cleaned and raw lists is the
maximum of the raw (pre-bypass) batch. -/
theorem filteredBlockBatch_spec (bypassBlocks rawBatchBlocks : List Nat)
    (hraw : rawBatchBlocks ≠ []) :
    (filteredBlockBatch bypassBlocks rawBatchBlocks).1.Disjoint bypassBlocks ∧
    getLatestBufferHeight (filteredBlockBatch bypassBlocks rawBatchBlocks).1 rawBatchBlocks
      = maxList rawBatchBlocks := by
  unfold filteredBlockBatch
  by_cases hb : bypassBlocks = []
  · subst hb
    constructor
    · simp [List.Disjoint]
    · simp [getLatestBufferHeight, maxList_append]
  · rw [if_neg hb]
    have hsub : ∀ x ∈ cleanedBatchBlocks bypassBlocks rawBatchBlocks, x ∈ rawBatchBlocks := by
      intro x hx
      exact (List.mem_filter.mp hx).1
    constructor
    · intro a ha hab
      have := (List.mem_filter.mp ha).2
      simp only [decide_eq_true_eq] at this
      exact this hab
    · unfold getLatestBufferHeight
      rw [maxList_append]
      exact Nat.max_eq_right (maxList_le_of_subset hsub)

/-- Claim C6 witness: the spec's own bypass scenario, raw `[10,11,12,13,14]`
with bypass `[12]`. -/
theorem filteredBlockBatch_spec_witness :
    ([10, 11, 12, 13, 14] : List Nat) ≠ [] ∧
    ((filteredBlockBatch [12] [10, 11, 12, 13, 14]).1.Disjoint [12] ∧
      getLatestBufferHeight (filteredBlockBatch [12] [10, 11, 12, 13, 14]).1 [10, 11, 12, 13, 14]
        = maxList [10, 11, 12, 13, 14]) :=
  ⟨by decide, filteredBlockBatch_spec [12] [10, 11, 12, 13, 14] (by decide)⟩

/-- Claim C1 (amended): for every dictionary-path scan (with an empty bypass
list), the enqueued list is the ascending sort of the concatenation — with
duplicates retained — of the dictionary's `batchBlocks` and the locally
computed modulo blocks for `[start, start + DICTIONARY_MAX_QUERY_SIZE)`,
truncated to at most the dispatcher's `freeSize`. -/
theorem dictionaryScanEnqueue_merge_spec (dataSources : List SubqlProjectDs)
    (startBlockHeight freeSize : Nat) (dictBatchBlocks : List Nat)
    (lastProcessedHeight : Nat) :
    (dictionaryScanEnqueue dataSources [] startBlockHeight freeSize dictBatchBlocks
        lastProcessedHeight).enqueued
      = (List.insertionSort (fun a b => a ≤ b)
          (dictBatchBlocks ++ getModuloBlocks dataSources startBlockHeight
            (startBlockHeight + DICTIONARY_MAX_QUERY_SIZE))).take freeSize := by
  by_cases h : List.insertionSort (fun a b => a ≤ b)
      (dictBatchBlocks ++ getModuloBlocks dataSources startBlockHeight
        (startBlockHeight + DICTIONARY_MAX_QUERY_SIZE)) = []
  · simp [dictionaryScanEnqueue, h]
  · simp only [dictionaryScanEnqueue]
    rw [if_neg h]
    simp only [filteredBlockBatch]
    rw [if_pos trivial]
    dsimp only
    rw [List.take_eq_take]
    omega

/-- Claim C1 counterexample: one block handler with modulo 5000, a scan
starting at 5000 whose dictionary result is `[5000]`.  The local modulo
blocks for the 10000-wide query window are `[5000, 10000]`, and the source
enqueues the duplicate — `[5000, 5000, 10000]` — where the claim's
duplicate-free union reads `[5000, 10000]`. -/
theorem dictionaryScanEnqueue_counterexample :
    (dictionaryScanEnqueue [dsModulo5000] [] 5000 10 [5000] 99999).enqueued
        = [5000, 5000, 10000]
    ∧ claimedDictionaryEnqueue [dsModulo5000] 5000 10 [5000] = [5000, 10000]
    ∧ ([5000, 5000, 10000] : List Nat) ≠ [5000, 10000] := by
  refine ⟨by decide, by decide, by decide⟩

/-- Claim C2 (amended): in modulo-only mode with `modulo = 100`,
`startBlock = 1000` and finalized head 1500, the first scan enqueues the
first `batchSize` multiples of 100 from 1000 on, without clamping to the
finalized head; with `batchSize = 6` that is exactly
`[1000, 1100, 1200, 1300, 1400, 1500]`. -/
theorem moduloOnly_scenario_spec :
    fillNextBlockBufferStep [dsModulo100] [] 6 false 0 1000 1500 1500 100 6 false 0 none
      = ScanStep.enqueue { enqueued := [1000, 1100, 1200, 1300, 1400, 1500],
                           latestBufferedHeight := 1500, bypassAfter := [] } := by
  decide

/-- Claim C2 counterexample: the same scenario with `batchSize = 7` — the
first scan enqueues `[1000, ..., 1600]`, and 1600 exceeds the finalized
head 1500, so the enqueued list is neither the claimed one nor bounded by
the head. -/
theorem moduloOnly_counterexample :
    fillNextBlockBufferStep [dsModulo100] [] 7 false 0 1000 1500 1500 100 7 false 0 none
      = ScanStep.enqueue { enqueued := [1000, 1100, 1200, 1300, 1400, 1500, 1600],
                           latestBufferedHeight := 1600, bypassAfter := [] }
    ∧ (1600 ∈ [1000, 1100, 1200, 1300, 1400, 1500, 1600] ∧ 1500 < 1600)
    ∧ ([1000, 1100, 1200, 1300, 1400, 1500, 1600] : List Nat)
        ≠ [1000, 1100, 1200, 1300, 1400, 1500] := by
  refine ⟨by decide, by decide, by decide⟩

/-- Claim C4: evaluating a block timestamp against a cron filter.  If the
timestamp exceeds the schedule's next slot (the value the getter read
returns, `slots (pos + 1)`), the call logs, returns a match, and — net of
the extra getter read in the log line and the rewind — leaves the cursor
exactly one slot past its pre-call position; otherwise the rewind undoes
the comparison's getter read, no-match is returned, and the cursor is back
where it started.  Consequently, after a match at time `t`, a re-query at
any `tq` below the post-match next slot (the slot the log line printed)
yields no match, and a re-query above it yields a match and advances the
schedule again. -/
theorem filterBlockTimestamp_spec (s : CronSeeker) (t tq : Int) :
    (s.slots (s.pos + 1) < t →
      filterBlockTimestamp t s
        = (true, { s with pos := s.pos + 1 }, [t, s.slots (s.pos + 2)]))
    ∧ (¬ s.slots (s.pos + 1) < t →
      filterBlockTimestamp t s = (false, s, []))
    ∧ (s.slots (s.pos + 1) < t →
      ((tq < s.slots (s.pos + 2) →
          (filterBlockTimestamp tq { s with pos := s.pos + 1 }).1 = false)
        ∧ (s.slots (s.pos + 2) < tq →
          (filterBlockTimestamp tq { s with pos := s.pos + 1 }).1 = true
          ∧ (filterBlockTimestamp tq { s with pos := s.pos + 1 }).2.1
              = { s with pos := s.pos + 2 }))) := by
  have e1 : s.pos + 1 + 1 - 1 = s.pos + 1 := by omega
  have e2 : s.pos + 1 + 1 = s.pos + 2 := by omega
  have e3 : s.pos + 1 - 1 = s.pos := by omega
  have e4 : s.pos + 2 + 1 - 1 = s.pos + 2 := by omega
  have e5 : s.pos + 2 - 1 = s.pos + 1 := by omega
  refine ⟨?_, ?_, ?_⟩
  · intro h
    simp [filterBlockTimestamp, cronScheduleNext, seekerNext, seekerPrev, h, e1, e2, e5]
  · intro h
    simp [filterBlockTimestamp, cronScheduleNext, seekerNext, seekerPrev, h, e3]
  · intro _
    constructor
    · intro hq
      have hcond : ¬ s.slots (s.pos + 1 + 1) < tq := by rw [e2]; omega
      simp [filterBlockTimestamp, cronScheduleNext, seekerNext, seekerPrev, hcond]
    · intro hq
      have hcond : s.slots (s.pos + 1 + 1) < tq := by rw [e2]; omega
      constructor
      · simp [filterBlockTimestamp, cronScheduleNext, seekerNext, seekerPrev, hcond]
      · simp [filterBlockTimestamp, cronScheduleNext, seekerNext, seekerPrev, hcond, hq, e2, e4]

/-- Claim C4 witness: cron slots at the multiples of 100, cursor on slot 0;
a block at time 150 matches and advances the cursor to slot 1; re-queries
at 180 and 250 sit on either side of the post-match next slot 200. -/
theorem filterBlockTimestamp_spec_witness :
    ((100 : Int) < 150 ∧ (180 : Int) < 200 ∧ (200 : Int) < 250)
    ∧ filterBlockTimestamp 150 hundredSlots
        = (true, { hundredSlots with pos := hundredSlots.pos + 1 }, [150, 200])
    ∧ (filterBlockTimestamp 180 { hundredSlots with pos := hundredSlots.pos + 1 }).1 = false
    ∧ (filterBlockTimestamp 250 { hundredSlots with pos := hundredSlots.pos + 1 }).1 = true :=
  ⟨⟨by norm_num, by norm_num, by norm_num⟩,
   by
     have h := (filterBlockTimestamp_spec hundredSlots 150 180).1 (by norm_num [hundredSlots])
     simpa [hundredSlots] using h,
   by
     have h := ((filterBlockTimestamp_spec hundredSlots 150 180).2.2
       (by norm_num [hundredSlots])).1 (by norm_num [hundredSlots])
     simpa [hundredSlots] using h,
   by
     have h := (((filterBlockTimestamp_spec hundredSlots 150 250).2.2
       (by norm_num [hundredSlots])).2 (by norm_num [hundredSlots])).1
     simpa [hundredSlots] using h⟩

/-- A false `dictionaryGenesisMatches` flag survives any later validation
call: `dictionaryValidation` never writes `true`. -/
theorem dictionaryValidation_preserves_false (poolGenesisHash : String) (st : FetchState)
    (dictionary : Option MetaData) (startBlockHeight : Option Nat)
    (h : st.dictionaryGenesisMatches = false) :
    ((dictionaryValidation st poolGenesisHash dictionary
        startBlockHeight).2).dictionaryGenesisMatches = false := by
  rcases dictionary with _ | md
  · simpa [dictionaryValidation] using h
  · rcases startBlockHeight with _ | sb
    · by_cases hg : md.genesisHash ≠ poolGenesisHash
      · simp [dictionaryValidation, hg]
      · simp [dictionaryValidation, hg, h]
    · by_cases hg : md.genesisHash ≠ poolGenesisHash
      · simp [dictionaryValidation, hg]
      · by_cases hl : md.lastProcessedHeight < sb
        · simp [dictionaryValidation, hg, hl, h]
        · simp [dictionaryValidation, hg, hl, h]

/-- A false `dictionaryGenesisMatches` flag survives any sequence of later
validation calls. -/
theorem runValidations_preserves_false (poolGenesisHash : String) (st : FetchState)
    (calls : List (Option MetaData × Option Nat)) (h : st.dictionaryGenesisMatches = false) :
    (runValidations poolGenesisHash st calls).dictionaryGenesisMatches = false := by
  induction calls generalizing st with
  | nil => exact h
  | cons c rest ih =>
      exact ih ((dictionaryValidation st poolGenesisHash c.1 c.2).2)
        (dictionaryValidation_preserves_false poolGenesisHash st c.1 c.2 h)

/-- Claim C5: once a dictionary response whose `genesisHash` differs from
the API pool's genesis hash has been passed to `dictionaryValidation`,
`useDictionary` is false after any sequence of further validation calls,
for any dictionary-url configuration and any query-entry count. -/
theorem useDictionary_after_genesis_mismatch (st : FetchState) (poolGenesisHash : String)
    (md : MetaData) (startBlockHeight : Option Nat)
    (laterCalls : List (Option MetaData × Option Nat))
    (hasDictionaryUrl : Bool) (queryEntriesCount : Nat)
    (hmismatch : md.genesisHash ≠ poolGenesisHash) :
    useDictionary
        (runValidations poolGenesisHash
          ((dictionaryValidation st poolGenesisHash (some md) startBlockHeight).2) laterCalls)
        hasDictionaryUrl queryEntriesCount = false := by
  have h1 : ((dictionaryValidation st poolGenesisHash (some md)
      startBlockHeight).2).dictionaryGenesisMatches = false := by
    simp [dictionaryValidation, hmismatch]
  have h2 := runValidations_preserves_false poolGenesisHash _ laterCalls h1
  simp [useDictionary, h2]

/-- Claim C5 witness: a session against pool genesis hash 0xAAA receives a
response carrying 0xBBB, then a later well-formed response carrying 0xAAA;
the dictionary stays disabled even with a configured url and three query
entries. -/
theorem useDictionary_after_genesis_mismatch_witness :
    ("0xBBB" : String) ≠ "0xAAA"
    ∧ useDictionary
        (runValidations ("0xAAA")
          ((dictionaryValidation { dictionaryGenesisMatches := true } ("0xAAA")
              (some { lastProcessedHeight := 0, genesisHash := "0xBBB", chain := "near",
                      startHeight := 1 })
              (some 5)).2)
          [(some { lastProcessedHeight := 9000, genesisHash := "0xAAA", chain := "near",
                   startHeight := 1 }, some 6)])
        true 3 = false :=
  ⟨by decide,
   useDictionary_after_genesis_mismatch { dictionaryGenesisMatches := true } ("0xAAA")
     { lastProcessedHeight := 0, genesisHash := "0xBBB", chain := "near", startHeight := 1 }
     (some 5)
     [(some { lastProcessedHeight := 9000, genesisHash := "0xAAA", chain := "near",
              startHeight := 1 }, some 6)]
     true 3 (by decide)⟩

/-- Claim C7: the literal string wire action decodes to the CreateAccount
variant with empty payload; a single-key object decodes with its key as the
type and its value as the payload whenever the key is in the closed variant
set; any key outside the set is rejected with the InvalidAction error. -/
theorem wrapAction_spec (id : Nat) (tx : NearTransaction) (known unknown : String)
    (v w : NearActionValue) :
    wrapAction (WireAction.str ("CreateAccount")) id tx
        = Except.ok { id := id, type := "CreateAccount", action := NearActionValue.empty,
                      transaction := tx }
    ∧ (known ∈ actionTypes →
        wrapAction (WireAction.obj [(known, v)]) id tx
          = Except.ok { id := id, type := known, action := v, transaction := tx })
    ∧ (unknown ∉ actionTypes →
        wrapAction (WireAction.obj [(unknown, w)]) id tx
          = Except.error ("Invalid type string for NearAction")) := by
  refine ⟨rfl, ?_, ?_⟩
  · intro hk
    simp only [actionTypes, List.mem_cons, List.not_mem_nil, or_false] at hk
    rcases hk with rfl | rfl | rfl | rfl | rfl | rfl | rfl | rfl <;> rfl
  · intro hk
    simp only [actionTypes, List.mem_cons, List.not_mem_nil, or_false, not_or] at hk
    obtain ⟨h1, h2, h3, h4, h5, h6, h7, h8⟩ := hk
    simp [wrapAction, parseNearAction, h1, h2, h3, h4, h5, h6, h7, h8]

/-- Claim C7 witness: the bare string, a Transfer object carrying a payload,
and an object with an unknown key. -/
theorem wrapAction_spec_witness :
    (("Transfer" : String) ∈ actionTypes ∧ ("Unknown" : String) ∉ actionTypes)
    ∧ wrapAction (WireAction.str ("CreateAccount")) 0 { hash := "h" }
        = Except.ok { id := 0, type := "CreateAccount", action := NearActionValue.empty,
                      transaction := { hash := "h" } }
    ∧ wrapAction (WireAction.obj [("Transfer", NearActionValue.value 7)]) 0 { hash := "h" }
        = Except.ok { id := 0, type := "Transfer", action := NearActionValue.value 7,
                      transaction := { hash := "h" } }
    ∧ wrapAction (WireAction.obj [("Unknown", NearActionValue.empty)]) 0 { hash := "h" }
        = Except.error ("Invalid type string for NearAction") :=
  ⟨⟨by decide, by decide⟩,
   (wrapAction_spec 0 { hash := "h" } ("Transfer") ("Unknown") (NearActionValue.value 7)
       NearActionValue.empty).1,
   (wrapAction_spec 0 { hash := "h" } ("Transfer") ("Unknown") (NearActionValue.value 7)
       NearActionValue.empty).2.1 (by decide),
   (wrapAction_spec 0 { hash := "h" } ("Transfer") ("Unknown") (NearActionValue.value 7)
       NearActionValue.empty).2.2 (by decide)⟩

/-- Claim C8: for every height, a `null` entry in the worker's fetched-block
map makes `processBlock` return the skip response without raising, and an
error other than `BlockUnavailableError` raised while indexing a fetched
block is re-raised unchanged. -/
theorem processBlock_spec (staticDataSources dynamicDataSources : List SubqlProjectDs)
    (fetchedBlocks : FetchedBlocks)
    (indexBlockFn : BlockContent → List SubqlProjectDs → Except WorkerError ProcessBlockResponse)
    (h1 h2 : Nat) (b : BlockContent) (msg : String) :
    (fetchedBlocks h1 = some none →
      (processBlock staticDataSources dynamicDataSources fetchedBlocks indexBlockFn h1).1
        = Except.ok { blockHash := none, dynamicDsCreated := false,
                      reindexBlockHeight := none })
    ∧ (fetchedBlocks h2 = some (some b) →
        indexBlockFn b (getAllDataSources staticDataSources dynamicDataSources h2)
          = Except.error (WorkerError.other msg) →
        (processBlock staticDataSources dynamicDataSources fetchedBlocks indexBlockFn h2).1
          = Except.error (WorkerError.other msg)) := by
  constructor
  · intro hf
    simp [processBlock, processBlockTry, hf]
  · intro hf hi
    simp [processBlock, processBlockTry, hf, hi]

/-- Claim C8 witness: the fixture map holds a `null` entry at height 42 and
a real block at height 43, and the indexer fails with a transient error. -/
theorem processBlock_spec_witness :
    (fetchedFixture 42 = some none
      ∧ fetchedFixture 43 = some (some { blockHeight := 43 })
      ∧ indexBoom { blockHeight := 43 } (getAllDataSources [] [] 43)
          = Except.error (WorkerError.other ("boom")))
    ∧ (processBlock [] [] fetchedFixture indexBoom 42).1
        = Except.ok { blockHash := none, dynamicDsCreated := false, reindexBlockHeight := none }
    ∧ (processBlock [] [] fetchedFixture indexBoom 43).1
        = Except.error (WorkerError.other ("boom")) :=
  ⟨⟨by decide, by decide, rfl⟩,
   (processBlock_spec [] [] fetchedFixture indexBoom 42 43 { blockHeight := 43 } ("boom")).1
     (by decide),
   (processBlock_spec [] [] fetchedFixture indexBoom 42 43 { blockHeight := 43 } ("boom")).2
     (by decide) rfl⟩

/-- A single action filter passes an action exactly when its `type` is
absent, the falsy empty string, or equal to the action's type. -/
theorem filterAction_eq_true_iff (a : NearAction) (f : NearActionFilter) :
    filterAction a (some f) = true ↔ actionFilterPasses a f := by
  unfold filterAction actionFilterPasses
  rcases hft : f.type with _ | ty
  · simp [hft]
  · by_cases hty : ty = ""
    · subst hty
      simp [hft]
    · simp [hft, hty]
      exact eq_comm

/-- Claim C9 (amended): `filterActions` returns the input unchanged for an
undefined argument or an empty array; otherwise an action is kept exactly
when at least one filter passes it, where a single filter passes an action
iff its `type` is unset or empty, or equals the action's type. -/
theorem filterActions_spec (actions : List NearAction) (f : NearActionFilter)
    (fs : List NearActionFilter) (a : NearAction) :
    filterActions actions FilterArg.undef = actions
    ∧ filterActions actions (FilterArg.array []) = actions
    ∧ (a ∈ filterActions actions (FilterArg.single f) ↔
        a ∈ actions ∧ actionFilterPasses a f)
    ∧ (fs ≠ [] →
        (a ∈ filterActions actions (FilterArg.array fs) ↔
          a ∈ actions ∧ ∃ g ∈ fs, actionFilterPasses a g)) := by
  refine ⟨rfl, rfl, ?_, ?_⟩
  · simp [filterActions, List.mem_filter, filterAction_eq_true_iff]
  · intro hfs
    cases fs with
    | nil => exact absurd rfl hfs
    | cons g rest =>
        simp [filterActions, List.mem_filter, List.any_eq_true, filterAction_eq_true_iff]

/-- Claim C9 counterexample: a filter whose `type` is the empty string is
set but falsy; the source keeps a Transfer action, while the claim's
reading (type set and unequal) would drop it. -/
theorem filterAction_empty_type_counterexample :
    filterActions [actTransfer] (FilterArg.single emptyTypeFilter) = [actTransfer]
    ∧ List.filter (fun a => claimedFilterAction a emptyTypeFilter) [actTransfer] = []
    ∧ ([actTransfer] : List NearAction) ≠ [] := by
  refine ⟨by decide, by decide, by decide⟩

/-- Claim C9 witness: the empty-string filter in a one-element array keeps
the Transfer action. -/
theorem filterActions_spec_witness :
    ([emptyTypeFilter] : List NearActionFilter) ≠ []
    ∧ (actTransfer ∈ filterActions [actTransfer] (FilterArg.array [emptyTypeFilter]) ↔
        actTransfer ∈ [actTransfer] ∧ ∃ g ∈ [emptyTypeFilter], actionFilterPasses actTransfer g) :=
  ⟨by decide,
   (filterActions_spec [actTransfer] emptyTypeFilter [emptyTypeFilter] actTransfer).2.2.2
     (by decide)⟩

/-- Claim C10: `fetchBlock` never rejects — whatever the stored entry and
the RPC outcome, it resolves, with `undefined`; and when the RPC fails the
fetched-block map is left untouched (no entry is added for the height). -/
theorem fetchBlock_spec (fetchedBlocks : FetchedBlocks)
    (rpcResult : Except WorkerError (Option BlockContent)) (height : Nat) :
    (fetchBlock fetchedBlocks rpcResult height).1 = none
    ∧ (∀ e, rpcResult = Except.error e →
        (fetchBlock fetchedBlocks rpcResult height).2 = fetchedBlocks) := by
  rcases hE : fetchedBlocks height with _ | ob
  · cases rpcResult <;> simp [fetchBlock, fetchBlockTask, hE]
  · cases ob <;> cases rpcResult <;> simp [fetchBlock, fetchBlockTask, hE]

/-- Claim C10 witness: an empty fetched-block map and a failing RPC — the
call resolves with `undefined` and the map is unchanged. -/
theorem fetchBlock_spec_witness :
    (fetchBlock (fun _ => none) (Except.error (WorkerError.other ("rpc failure"))) 7).1 = none
    ∧ (fetchBlock (fun _ => none) (Except.error (WorkerError.other ("rpc failure"))) 7).2
        = (fun _ => none) :=
  ⟨(fetchBlock_spec (fun _ => none) (Except.error (WorkerError.other ("rpc failure"))) 7).1,
   (fetchBlock_spec (fun _ => none) (Except.error (WorkerError.other ("rpc failure"))) 7).2
     (WorkerError.other ("rpc failure")) rfl⟩
